import Mathlib

/-!
Verification of the Bully leader-election core (`src/election.rs`).

The Rust code is asynchronous and network-facing; we embed it shallowly:
the network is an oracle `net : Node → ContactResult` giving, for each
higher peer the fan-out loop would contact, the outcome of the combined
connect + Election-RPC attempt (connection failure, RPC failure/timeout,
or a reply carrying `ok`).  Stateful operations return the updated
`ElectionManager` explicitly, together with the observable RPC traffic
(contacted peers, dispatched Coordinator announcements).
-/

/-- `Node` from `election.rs`: identity (`i32`) plus address string. -/
structure Node where
  id : Int
  addr : String
deriving DecidableEq, Repr

/-- Protobuf `Node` message (same fields as `Node`). -/
structure ProtoNode where
  id : Int
  addr : String
deriving DecidableEq, Repr

/-- `impl From<&Node> for ProtoNode`. -/
def ProtoNode.ofNode (n : Node) : ProtoNode :=
  { id := n.id, addr := n.addr }

/-- `ProtoNode` back to a `Node` (as `announce_coordinator` rebuilds it). -/
def Node.ofProto (n : ProtoNode) : Node :=
  { id := n.id, addr := n.addr }

/-- `ElectionManager`: own node, static peer list, leader cell.
The `Arc<RwLock<Option<Node>>>` cell is embedded as its current value. -/
structure ElectionManager where
  self_node : Node
  peers : List Node
  leader : Option Node
deriving DecidableEq, Repr

/-- `ElectionManager::new`. -/
def ElectionManager.new (self_node : Node) (peers : List Node) : ElectionManager :=
  { self_node := self_node, peers := peers, leader := none }

/-- Outcome of one peer contact in the fan-out loop of `start_election`:
connection failure/timeout, Election-RPC failure/timeout, or a reply. -/
inductive ContactResult where
  | connectFail : ContactResult
  | rpcFail : ContactResult
  | reply (ok : Bool) : ContactResult
deriving DecidableEq, Repr

/-- The `higher` list computed at the top of `start_election`. -/
def higherPeers (m : ElectionManager) : List Node :=
  m.peers.filter (fun p => m.self_node.id < p.id)

/-- The fan-out loop of `start_election` over the `higher` list: returns
`someone_alive` together with the peers actually contacted (a connection
attempt made), in order.  A `reply true` short-circuits the loop;
connection failure, RPC failure and `reply false` all `continue`. -/
def fanOut (net : Node → ContactResult) : List Node → Bool × List Node
  | [] => (false, [])
  | p :: rest =>
    match net p with
    | ContactResult.reply true => (true, [p])
    | _ =>
      let r := fanOut net rest
      (r.1, p :: r.2)

/-- One Coordinator announcement dispatched by `declare_leader`. -/
structure Announcement where
  target : Node
  leaderField : Option ProtoNode
deriving DecidableEq, Repr

/-- `ElectionManager::declare_leader`: set the leader cell to this node's
own `Node`, then dispatch a Coordinator announcement carrying that value
to every peer (fire-and-forget).  Returns the updated manager and the
dispatched announcements. -/
def ElectionManager.declare_leader (m : ElectionManager) :
    ElectionManager × List Announcement :=
  let leader_node := m.self_node
  ({ m with leader := some leader_node },
    m.peers.map (fun peer =>
      { target := peer, leaderField := some (ProtoNode.ofNode leader_node) }))

/-- Result of one `start_election` call: the manager state afterwards,
the higher peers contacted during the fan-out, and the Coordinator
announcements dispatched (empty unless the node declared itself leader). -/
structure ElectionOutcome where
  manager : ElectionManager
  contacted : List Node
  announced : List Announcement
deriving DecidableEq, Repr

/-- `ElectionManager::start_election`. -/
def ElectionManager.start_election (m : ElectionManager)
    (net : Node → ContactResult) : ElectionOutcome :=
  let higher := higherPeers m
  if higher.isEmpty then
    let d := m.declare_leader
    { manager := d.1, contacted := [], announced := d.2 }
  else
    let r := fanOut net higher
    if r.1 then
      { manager := m, contacted := r.2, announced := [] }
    else
      let d := m.declare_leader
      { manager := d.1, contacted := r.2, announced := d.2 }

/-- `ElectionManager::get_leader`. -/
def ElectionManager.get_leader (m : ElectionManager) : Option Node :=
  m.leader

/-- Outcome of a per-peer best-effort announcement attempt: the spawned
task connects and calls `announce_coordinator`, ignoring any error.
`annOk p = true` means the announcement to `p` was delivered. -/
def deliveredAnnouncements (anns : List Announcement)
    (annOk : Node → Bool) : List Announcement :=
  anns.filter (fun a => annOk a.target)

/-- Protobuf `ElectionRequest`: optional originator node. -/
structure ElectionRequest where
  «from» : Option ProtoNode
deriving DecidableEq, Repr

/-- Protobuf `ElectionResponse`. -/
structure ElectionResponse where
  ok : Bool
deriving DecidableEq, Repr

/-- Protobuf `Coordinator` message: optional leader node. -/
structure Coordinator where
  leader : Option ProtoNode
deriving DecidableEq, Repr

/-- Protobuf `PingResponse`. -/
structure PingResponse where
  alive : Bool
deriving DecidableEq, Repr

/-- gRPC `Status`: only `invalid_argument` is produced by this code. -/
inductive Status where
  | invalid_argument (msg : String) : Status
deriving DecidableEq, Repr

/-- `ElectionService`: thin wrapper over one `ElectionManager`. -/
structure ElectionService where
  manager : ElectionManager
deriving DecidableEq, Repr

/-- Result of the `election` RPC handler: the reply (or error), whether a
`start_election` task was spawned, and the manager state when the
handler returns. -/
structure ElectionStep where
  result : Except Status ElectionResponse
  spawned : Bool
  manager : ElectionManager
deriving Repr

/-- `ElectionService::election`: reject a missing originator with
invalid-argument; otherwise reply `ok = (from.id < self.id)`, spawning
this node's own election exactly when `ok`. -/
def ElectionService.election (s : ElectionService)
    (request : ElectionRequest) : ElectionStep :=
  match request.«from» with
  | none =>
    { result := Except.error (Status.invalid_argument "missing from"),
      spawned := false, manager := s.manager }
  | some f =>
    let ok := decide (f.id < s.manager.self_node.id)
    { result := Except.ok { ok := ok }, spawned := ok, manager := s.manager }

/-- `ElectionService::announce_coordinator`: if the message carries a
leader, overwrite the cell with it; always reply `alive = true`. -/
def ElectionService.announce_coordinator (s : ElectionService)
    (request : Coordinator) : ElectionManager × PingResponse :=
  match request.leader with
  | some l => ({ s.manager with leader := some (Node.ofProto l) }, { alive := true })
  | none => (s.manager, { alive := true })

/-- `ElectionService::ping`. -/
def ElectionService.ping (s : ElectionService) : PingResponse :=
  let _ := s
  { alive := true }

/-! ## Helper lemmas about the fan-out loop -/

/-- If no peer in the list replies `ok = true`, the fan-out loop reports
`someone_alive = false` and contacts every peer in order. -/
theorem fanOut_eq_of_no_ok (net : Node → ContactResult) (l : List Node)
    (h : ∀ p ∈ l, net p ≠ ContactResult.reply true) :
    fanOut net l = (false, l) := by
  induction l with
  | nil => rfl
  | cons p rest ih =>
    have hp := h p (List.mem_cons_self p rest)
    have hrest : ∀ q ∈ rest, net q ≠ ContactResult.reply true :=
      fun q hq => h q (List.mem_cons_of_mem p hq)
    cases hnp : net p with
    | connectFail => simp [fanOut, hnp, ih hrest]
    | rpcFail => simp [fanOut, hnp, ih hrest]
    | reply ok =>
      cases ok with
      | false => simp [fanOut, hnp, ih hrest]
      | true => exact absurd hnp hp

/-- If some peer in the list replies `ok = true`, the fan-out loop reports
`someone_alive = true`. -/
theorem fanOut_alive_of_ok (net : Node → ContactResult) (l : List Node)
    (h : ∃ p ∈ l, net p = ContactResult.reply true) :
    (fanOut net l).1 = true := by
  induction l with
  | nil => exact absurd h (by simp)
  | cons q rest ih =>
    cases hnq : net q with
    | reply ok =>
      cases ok with
      | true => simp [fanOut, hnq]
      | false =>
        obtain ⟨p, hp, hok⟩ := h
        rcases List.mem_cons.mp hp with rfl | hp2
        · exact absurd hnq (by simp [hok])
        · simp [fanOut, hnq, ih ⟨p, hp2, hok⟩]
    | connectFail =>
      obtain ⟨p, hp, hok⟩ := h
      rcases List.mem_cons.mp hp with rfl | hp2
      · exact absurd hnq (by simp [hok])
      · simp [fanOut, hnq, ih ⟨p, hp2, hok⟩]
    | rpcFail =>
      obtain ⟨p, hp, hok⟩ := h
      rcases List.mem_cons.mp hp with rfl | hp2
      · exact absurd hnq (by simp [hok])
      · simp [fanOut, hnq, ih ⟨p, hp2, hok⟩]

/-- The first affirmative reply short-circuits the loop: the contacted
peers are exactly the non-affirmative prefix plus the affirmative peer. -/
theorem fanOut_shortcircuit (net : Node → ContactResult)
    (l1 : List Node) (p : Node) (l2 : List Node)
    (h1 : ∀ q ∈ l1, net q ≠ ContactResult.reply true)
    (hp : net p = ContactResult.reply true) :
    fanOut net (l1 ++ p :: l2) = (true, l1 ++ [p]) := by
  induction l1 with
  | nil => simp [fanOut, hp]
  | cons q rest ih =>
    have hq := h1 q (List.mem_cons_self q rest)
    have hrest : ∀ r ∈ rest, net r ≠ ContactResult.reply true :=
      fun r hr => h1 r (List.mem_cons_of_mem q hr)
    cases hnq : net q with
    | connectFail => simp [fanOut, hnq, ih hrest]
    | rpcFail => simp [fanOut, hnq, ih hrest]
    | reply ok =>
      cases ok with
      | false => simp [fanOut, hnq, ih hrest]
      | true => exact absurd hnq hq

/-- A manager with no higher-identity peer has an empty `higher` list. -/
theorem higherPeers_eq_nil (m : ElectionManager)
    (h : ∀ p ∈ m.peers, ¬ m.self_node.id < p.id) : higherPeers m = [] := by
  unfold higherPeers
  rw [List.filter_eq_nil_iff]
  intro p hp
  simpa using h p hp

/-! ## Concrete nodes and networks used by the witnesses -/

/-- A node with identity 10. -/
def nHigh : Node := { id := 10, addr := "127.0.0.1:50051" }

/-- A node with identity 1. -/
def nLow : Node := { id := 1, addr := "127.0.0.1:50052" }

/-- A node with identity 5. -/
def nMid : Node := { id := 5, addr := "127.0.0.1:50053" }

/-- A node with identity 20. -/
def nTop : Node := { id := 20, addr := "127.0.0.1:50054" }

/-- Manager for `nHigh` with the single lower peer `nLow`. -/
def mgrHigh : ElectionManager := ElectionManager.new nHigh [nLow]

/-- Manager for `nLow` with the single higher peer `nHigh`. -/
def mgrLow : ElectionManager := ElectionManager.new nLow [nHigh]

/-- Manager for `nLow` with higher peers `nMid`, `nHigh`, `nTop`. -/
def mgrLow3 : ElectionManager := ElectionManager.new nLow [nMid, nHigh, nTop]

/-- A network where every connection attempt fails. -/
def netDown : Node → ContactResult := fun _ => ContactResult.connectFail

/-- A network where every peer replies `ok = true`. -/
def netAllOk : Node → ContactResult := fun _ => ContactResult.reply true

/-- A network where every peer replies `ok = false`. -/
def netAllRefuse : Node → ContactResult := fun _ => ContactResult.reply false

/-- A network where only the peer with identity 10 replies `ok = true`;
everyone else replies `ok = false`. -/
def netOnlyTen : Node → ContactResult :=
  fun p => if p.id = 10 then ContactResult.reply true else ContactResult.reply false

/-! ## Claim theorems -/

/-- C1: if no peer has identity greater than the manager's own (including
an empty peer list), `start_election` sets the leader cell to the
manager's own node, so `get_leader` returns it; with an empty peer list
there is no RPC traffic at all (no peer contacted, no announcement). -/
theorem start_election_no_higher_self_leader (m : ElectionManager)
    (net : Node → ContactResult)
    (h : ∀ p ∈ m.peers, ¬ m.self_node.id < p.id) :
    (m.start_election net).manager.get_leader = some m.self_node ∧
    (m.peers = [] →
      (m.start_election net).contacted = [] ∧
      (m.start_election net).announced = []) := by
  have hh : higherPeers m = [] := higherPeers_eq_nil m h
  refine ⟨?_, fun hp => ?_⟩
  · simp [ElectionManager.start_election, hh, ElectionManager.declare_leader,
      ElectionManager.get_leader]
  · simp [ElectionManager.start_election, hh, ElectionManager.declare_leader, hp]

/-- Witness for C1 at `mgrHigh` (self id 10, sole peer id 1). -/
theorem start_election_no_higher_self_leader_w :
    (∀ p ∈ mgrHigh.peers, ¬ mgrHigh.self_node.id < p.id) ∧
    ((mgrHigh.start_election netDown).manager.get_leader = some mgrHigh.self_node ∧
      (mgrHigh.peers = [] →
        (mgrHigh.start_election netDown).contacted = [] ∧
        (mgrHigh.start_election netDown).announced = [])) :=
  ⟨by decide, start_election_no_higher_self_leader mgrHigh netDown (by decide)⟩

/-- C2: with at least one higher-identity peer, if every connection or
Election-RPC attempt to each higher peer fails, `start_election` declares
this node leader: afterwards `get_leader` returns the manager's own node. -/
theorem start_election_all_higher_unreachable (m : ElectionManager)
    (net : Node → ContactResult)
    (hne : ∃ p ∈ m.peers, m.self_node.id < p.id)
    (hfail : ∀ p ∈ higherPeers m,
      net p = ContactResult.connectFail ∨ net p = ContactResult.rpcFail) :
    (m.start_election net).manager.get_leader = some m.self_node := by
  obtain ⟨p, hp, hgt⟩ := hne
  have hmem : p ∈ higherPeers m := by
    unfold higherPeers
    exact List.mem_filter.mpr ⟨hp, by simpa using hgt⟩
  have hne2 : ¬ (higherPeers m).isEmpty := by
    cases hh : higherPeers m with
    | nil => rw [hh] at hmem; cases hmem
    | cons a l => simp [hh]
  have hfo : fanOut net (higherPeers m) = (false, higherPeers m) := by
    refine fanOut_eq_of_no_ok net (higherPeers m) (fun q hq => ?_)
    rcases hfail q hq with h1 | h1 <;> simp [h1]
  simp [ElectionManager.start_election, hne2, hfo,
    ElectionManager.declare_leader, ElectionManager.get_leader]

/-- Witness for C2 at `mgrLow` (self id 1, higher peer id 10, all
connections failing). -/
theorem start_election_all_higher_unreachable_w :
    ((∃ p ∈ mgrLow.peers, mgrLow.self_node.id < p.id) ∧
      (∀ p ∈ higherPeers mgrLow,
        netDown p = ContactResult.connectFail ∨
        netDown p = ContactResult.rpcFail)) ∧
    (mgrLow.start_election netDown).manager.get_leader = some mgrLow.self_node :=
  ⟨⟨by decide, by decide⟩,
    start_election_all_higher_unreachable mgrLow netDown (by decide) (by decide)⟩

/-- C3: if some higher-identity peer replies `ok = true` during
`start_election`, the call does not write the leader cell: the whole
manager, and in particular `get_leader`, is unchanged. -/
theorem start_election_ok_no_overwrite (m : ElectionManager)
    (net : Node → ContactResult)
    (h : ∃ p ∈ higherPeers m, net p = ContactResult.reply true) :
    (m.start_election net).manager = m ∧
    (m.start_election net).manager.get_leader = m.get_leader := by
  have hne2 : ¬ (higherPeers m).isEmpty := by
    obtain ⟨p, hp, _⟩ := h
    cases hh : higherPeers m with
    | nil => rw [hh] at hp; cases hp
    | cons a l => simp [hh]
  have halive : (fanOut net (higherPeers m)).1 = true :=
    fanOut_alive_of_ok net (higherPeers m) h
  constructor
  · simp [ElectionManager.start_election, hne2, halive]
  · simp [ElectionManager.start_election, hne2, halive]

/-- Witness for C3 at `mgrLow` with the higher peer alive and
affirmative: the leader cell stays empty. -/
theorem start_election_ok_no_overwrite_w :
    (∃ p ∈ higherPeers mgrLow, netAllOk p = ContactResult.reply true) ∧
    ((mgrLow.start_election netAllOk).manager = mgrLow ∧
      (mgrLow.start_election netAllOk).manager.get_leader = mgrLow.get_leader) :=
  ⟨by decide, start_election_ok_no_overwrite mgrLow netAllOk (by decide)⟩

/-- C4: the first higher peer replying `ok = true` short-circuits the
fan-out: the contacted peers are exactly the peers before it in iteration
order plus that peer; no later higher peer is contacted. -/
theorem start_election_shortcircuit (m : ElectionManager)
    (net : Node → ContactResult) (l1 : List Node) (p : Node) (l2 : List Node)
    (hsplit : higherPeers m = l1 ++ p :: l2)
    (h1 : ∀ q ∈ l1, net q ≠ ContactResult.reply true)
    (hp : net p = ContactResult.reply true) :
    (m.start_election net).contacted = l1 ++ [p] := by
  have hne2 : ¬ (higherPeers m).isEmpty := by
    rw [hsplit]
    cases l1 <;> simp
  have hfo : fanOut net (higherPeers m) = (true, l1 ++ [p]) := by
    rw [hsplit]
    exact fanOut_shortcircuit net l1 p l2 h1 hp
  simp [ElectionManager.start_election, hne2, hfo]

/-- Witness for C4 at `mgrLow3` (higher peers `[nMid, nHigh, nTop]`,
`nHigh` answering affirmatively): `nTop` is never contacted. -/
theorem start_election_shortcircuit_w :
    (higherPeers mgrLow3 = [nMid] ++ nHigh :: [nTop] ∧
      (∀ q ∈ [nMid], netOnlyTen q ≠ ContactResult.reply true) ∧
      netOnlyTen nHigh = ContactResult.reply true) ∧
    (mgrLow3.start_election netOnlyTen).contacted = [nMid] ++ [nHigh] :=
  ⟨⟨by decide, by decide, by decide⟩,
    start_election_shortcircuit mgrLow3 netOnlyTen [nMid] nHigh [nTop]
      (by decide) (by decide) (by decide)⟩

/-- C5: `announce_coordinator` with leader `L` then leader `L2` (both
present) leaves the cell holding `L2` — last write wins, with no
validation against `L` or the local identity. -/
theorem announce_coordinator_last_write_wins (s : ElectionService)
    (L L2 : ProtoNode) :
    ((ElectionService.mk
        (s.announce_coordinator { leader := some L }).1).announce_coordinator
      { leader := some L2 }).1.get_leader = some (Node.ofProto L2) := by
  simp [ElectionService.announce_coordinator, ElectionManager.get_leader]

/-- C6: `election` with a present originator `f` replies
`ok = (f.id < self.id)`, spawns this node's own election exactly when
`ok`, and for `f.id ≥ self.id` replies `ok = false` without spawning. -/
theorem election_ok_iff_lower (s : ElectionService) (f : ProtoNode) :
    (s.election { «from» := some f }).result =
      Except.ok { ok := decide (f.id < s.manager.self_node.id) } ∧
    ((s.election { «from» := some f }).spawned = true ↔
      f.id < s.manager.self_node.id) ∧
    (s.manager.self_node.id ≤ f.id →
      (s.election { «from» := some f }).result = Except.ok { ok := false } ∧
      (s.election { «from» := some f }).spawned = false) := by
  refine ⟨rfl, by simp [ElectionService.election], fun hge => ?_⟩
  have hnot : ¬ f.id < s.manager.self_node.id := not_lt.mpr hge
  constructor
  · simp [ElectionService.election, hnot]
  · simp [ElectionService.election, hnot]

/-- Witness for C6 at a concrete service (self id 10) and a higher
originator (id 20). -/
theorem election_ok_iff_lower_w :
    ((ElectionService.mk mgrHigh).election
        { «from» := some (ProtoNode.ofNode nTop) }).result =
      Except.ok
        { ok := decide ((ProtoNode.ofNode nTop).id < mgrHigh.self_node.id) } ∧
    (((ElectionService.mk mgrHigh).election
        { «from» := some (ProtoNode.ofNode nTop) }).spawned = true ↔
      (ProtoNode.ofNode nTop).id < mgrHigh.self_node.id) ∧
    (mgrHigh.self_node.id ≤ (ProtoNode.ofNode nTop).id →
      ((ElectionService.mk mgrHigh).election
          { «from» := some (ProtoNode.ofNode nTop) }).result =
        Except.ok { ok := false } ∧
      ((ElectionService.mk mgrHigh).election
          { «from» := some (ProtoNode.ofNode nTop) }).spawned = false) :=
  election_ok_iff_lower (ElectionService.mk mgrHigh) (ProtoNode.ofNode nTop)

/-- C7: `election` with an absent originator returns the invalid-argument
error, spawns no election, and leaves the manager (and its leader cell)
unchanged. -/
theorem election_missing_originator (s : ElectionService) :
    (s.election { «from» := none }).result =
      Except.error (Status.invalid_argument "missing from") ∧
    (s.election { «from» := none }).spawned = false ∧
    (s.election { «from» := none }).manager = s.manager :=
  ⟨rfl, rfl, rfl⟩

/-- C8: `declare_leader` sets the leader cell to this node's own `Node`,
dispatches a Coordinator announcement carrying that value to every peer
in the list (no peer skipped, lower and higher alike), and delivery is
best-effort per peer: a failure at one peer never removes another peer's
announcement from the delivered set. -/
theorem declare_leader_announces_all (m : ElectionManager) :
    m.declare_leader.1.get_leader = some m.self_node ∧
    m.declare_leader.2.map Announcement.target = m.peers ∧
    (∀ a ∈ m.declare_leader.2,
      a.leaderField = some (ProtoNode.ofNode m.self_node)) ∧
    (∀ annOk : Node → Bool, ∀ a ∈ m.declare_leader.2,
      annOk a.target = true →
        a ∈ deliveredAnnouncements m.declare_leader.2 annOk) := by
  refine ⟨rfl, ?_, ?_, ?_⟩
  · show (m.peers.map _).map Announcement.target = m.peers
    rw [List.map_map]
    exact List.map_id' m.peers
  · intro a ha
    simp only [ElectionManager.declare_leader, List.mem_map] at ha
    obtain ⟨peer, _, rfl⟩ := ha
    rfl
  · intro annOk a ha hok
    exact List.mem_filter.mpr ⟨ha, hok⟩

/-- Witness for C8 at `mgrHigh` (peer list `[nLow]`). -/
theorem declare_leader_announces_all_w :
    mgrHigh.declare_leader.1.get_leader = some mgrHigh.self_node ∧
    mgrHigh.declare_leader.2.map Announcement.target = mgrHigh.peers ∧
    (∀ a ∈ mgrHigh.declare_leader.2,
      a.leaderField = some (ProtoNode.ofNode mgrHigh.self_node)) ∧
    (∀ annOk : Node → Bool, ∀ a ∈ mgrHigh.declare_leader.2,
      annOk a.target = true →
        a ∈ deliveredAnnouncements mgrHigh.declare_leader.2 annOk) :=
  declare_leader_announces_all mgrHigh

/-- C9: `announce_coordinator` with an absent leader field leaves the
manager (hence the leader cell) unchanged and still replies
`alive = true` rather than an error. -/
theorem announce_coordinator_absent_leader (s : ElectionService) :
    (s.announce_coordinator { leader := none }).1 = s.manager ∧
    (s.announce_coordinator { leader := none }).2 = { alive := true } :=
  ⟨rfl, rfl⟩

/-- C10: a higher peer that replies `ok = false` is treated like an
unreachable one: if every higher peer fails or replies `ok = false`,
`someone_alive` never becomes true, the loop runs through the whole
`higher` list, and the node declares itself leader. -/
theorem start_election_all_refuse_self_leader (m : ElectionManager)
    (net : Node → ContactResult)
    (h : ∀ p ∈ higherPeers m, net p ≠ ContactResult.reply true) :
    (m.start_election net).manager.get_leader = some m.self_node ∧
    (m.start_election net).contacted = higherPeers m := by
  have hfo : fanOut net (higherPeers m) = (false, higherPeers m) :=
    fanOut_eq_of_no_ok net (higherPeers m) h
  by_cases he : (higherPeers m).isEmpty
  · have hnil : higherPeers m = [] := List.isEmpty_iff.mp he
    constructor
    · simp [ElectionManager.start_election, hnil,
        ElectionManager.declare_leader, ElectionManager.get_leader]
    · simp [ElectionManager.start_election, hnil]
  · constructor
    · simp [ElectionManager.start_election, he, hfo,
        ElectionManager.declare_leader, ElectionManager.get_leader]
    · simp [ElectionManager.start_election, he, hfo]

/-- Witness for C10 at `mgrLow3`, every higher peer replying
`ok = false`: all three are contacted and the node self-declares. -/
theorem start_election_all_refuse_self_leader_w :
    (∀ p ∈ higherPeers mgrLow3, netAllRefuse p ≠ ContactResult.reply true) ∧
    ((mgrLow3.start_election netAllRefuse).manager.get_leader =
        some mgrLow3.self_node ∧
      (mgrLow3.start_election netAllRefuse).contacted = higherPeers mgrLow3) :=
  ⟨by decide, start_election_all_refuse_self_leader mgrLow3 netAllRefuse (by decide)⟩
